import Mathlib

/-!
# Verification of the neural-pipeline checkpoint packer and augmentation pipeline

Shallow embedding of the two source files of the repository:

* src/tonet/data_processor/state_manager.py — the StateManager (checkpoint packer):
  a filesystem is modelled as an association list from path strings to file data,
  where file data is either raw bytes or a zip archive of named members.  The
  StateManager's mutable state (the tracked-file dict and the archive name prefix)
  is threaded explicitly, and Python exceptions are modelled as an Option PyError
  result component.

* src/tonet/data_conveyor/augmentations.py — the Augmentation hierarchy:
  configuration dictionaries are association lists of parameter values, each
  variant's constructor and get_config are embedded, and the random draws of
  random.randint / np.random.randint are passed in explicitly with their
  documented support as hypotheses.
-/

set_option autoImplicit false

/-! ## Generic dictionary model (Python dict as association list) -/

/-- Lookup in an association list keyed by strings; models Python dict
subscription returning the value when present (first matching key wins,
mirroring the fact that keys in a Python dict are unique). -/
def alookup {α : Type} : List (String × α) → String → Option α
  | [], _ => none
  | (k, v) :: rest, key => if key = k then some v else alookup rest key

/-- Remove every binding of a key from an association list. -/
def aerase {α : Type} : List (String × α) → String → List (String × α)
  | [], _ => []
  | (k, v) :: rest, key => if k = key then aerase rest key else (k, v) :: aerase rest key

/-- Overwrite the binding of a key in an association list. -/
def ainsert {α : Type} (l : List (String × α)) (key : String) (v : α) : List (String × α) :=
  (key, v) :: aerase l key

theorem alookup_ainsert_self {α : Type} (l : List (String × α)) (k : String) (v : α) :
    alookup (ainsert l k v) k = some v := by
  simp [ainsert, alookup]

theorem alookup_aerase_ne {α : Type} (l : List (String × α)) (k k' : String) (h : k' ≠ k) :
    alookup (aerase l k) k' = alookup l k' := by
  induction l with
  | nil => rfl
  | cons p rest ih =>
    obtain ⟨a, b⟩ := p
    by_cases hak : a = k
    · have hk'a : k' ≠ a := fun hh => h (hh.trans hak)
      simp [aerase, hak, alookup, hk'a, ih, h]
    · by_cases hk' : k' = a
      · simp [aerase, hak, alookup, hk']
      · simp [aerase, hak, alookup, hk', ih]

theorem alookup_ainsert_ne {α : Type} (l : List (String × α)) (k k' : String) (v : α)
    (h : k' ≠ k) : alookup (ainsert l k v) k' = alookup l k' := by
  simp [ainsert, alookup, h, alookup_aerase_ne l k k' h]

theorem alookup_aerase_self {α : Type} (l : List (String × α)) (k : String) :
    alookup (aerase l k) k = none := by
  induction l with
  | nil => rfl
  | cons p rest ih =>
    obtain ⟨a, b⟩ := p
    by_cases hak : a = k
    · simp [aerase, hak, ih]
    · have : k ≠ a := fun hh => hak hh.symm
      simp [aerase, hak, alookup, this, ih]

/-! ## Filesystem model for state_manager.py -/

/-- Content of a file: raw bytes, or a zip archive holding named members
(state_manager.py writes archives with ZipFile and reads them back with
extractall, so the archive structure is the only file structure the code
observes). -/
inductive FileData where
  | raw : List Nat → FileData
  | zip : List (String × FileData) → FileData

/-- A filesystem: an association list from absolute path to file content.
Every entry is a regular file (os.path.isfile is true exactly on the
recorded paths). -/
def FS : Type := List (String × FileData)

/-- Read the file at a path, none when the path does not exist. -/
def lookupFS (fs : FS) (path : String) : Option FileData := alookup fs path

/-- Create or overwrite the file at a path. -/
def insertFS (fs : FS) (path : String) (d : FileData) : FS := ainsert fs path d

/-- os.remove. -/
def eraseFS (fs : FS) (path : String) : FS := aerase fs path

/-- os.path.join for a directory and a relative name. -/
def pathJoin (dir name : String) : String := dir ++ "/" ++ name

/-- Scan the characters of a path, keeping only the component after the most
recent slash. -/
def basenameAux : List Char → List Char → List Char
  | [], acc => acc
  | c :: rest, acc => if c = '/' then basenameAux rest [] else basenameAux rest (acc ++ [c])

/-- os.path.basename: the component after the final slash. -/
def basename (p : String) : String := ⟨basenameAux p.data []⟩

/-- Python exceptions raised by the embedded code. -/
inductive PyError where
  | keyError : String → PyError
  | fileNotFoundError : String → PyError
  | badZipFile : String → PyError
  | valueError : PyError
deriving DecidableEq, Repr

/-! ## StateManager (src/tonet/data_processor/state_manager.py) -/

/-- The external file-structure manager collaborator: it only supplies the
three canonical paths that state_manager.py queries
(weights_dir, weights_file, optimizer_state_file). -/
structure FileStructManager where
  weights_dir : String
  weights_file : String
  optimizer_state_file : String

/-- The private dict self.__files of StateManager: it may hold the two keys
'weights_file' and 'state_file' (a missing key models the key being absent
from the Python dict, so that subscription raises KeyError). -/
structure SMFiles where
  weights_file : Option String
  state_file : Option String
deriving DecidableEq, Repr

/-- The mutable state of a StateManager instance: the tracked files and the
archive-name prefix (spelled preffix in the source). -/
structure SMState where
  files : SMFiles
  preffix : Option String
deriving DecidableEq, Repr

/-- A StateManager instance state together with the filesystem it acts on. -/
structure World where
  fs : FS
  sm : SMState

/-- The nested helper rm_file of clear_files and pack:
remove the file when it exists and is a regular file, otherwise do nothing. -/
def rm_file (fs : FS) (file : String) : FS :=
  if (lookupFS fs file).isSome then eraseFS fs file else fs

/-- The nested helper rename_file of pack: delete any pre-existing
file + ".old", then, when the file exists, rename it to file + ".old". -/
def rename_file (fs : FS) (file : String) : FS :=
  let target := file ++ ".old"
  let fs1 := rm_file fs target
  match lookupFS fs1 file with
  | some d => insertFS (eraseFS fs1 file) target d
  | none => fs1

/-- StateManager.__construct_result_file: weights_dir joined with
the optional prefix followed by "state.zip". -/
def construct_result_file (fsm : FileStructManager) (preffix : Option String) : String :=
  pathJoin fsm.weights_dir
    ((match preffix with | some p => p ++ "_" | none => "") ++ "state.zip")

/-- StateManager.pack (state_manager.py lines 40-61).  Rotates any existing
archive to the ".old" backup, opens a fresh zip at the result path (ZipFile
in mode 'w' creates/truncates the file immediately and finalizes whatever
members were written when it is closed, also when a write raised), writes the
weights file then the optimizer state file into it under their base names
(ZipFile.write raises FileNotFoundError when the source file is missing), and
finally deletes the two source files.  The error component carries the
exception when one is raised; the returned world reflects all effects that
happened before the raise. -/
def StateManager.pack (fsm : FileStructManager) (w : World) : World × Option PyError :=
  let weights_file := fsm.weights_file
  let state_file := fsm.optimizer_state_file
  let result_file := construct_result_file fsm w.sm.preffix
  let fs1 := rename_file w.fs result_file
  let fs2 := insertFS fs1 result_file (.zip [])
  match lookupFS fs2 weights_file with
  | none => ({ w with fs := fs2 }, some (.fileNotFoundError weights_file))
  | some wdata =>
    let fs3 := insertFS fs2 result_file (.zip [(basename weights_file, wdata)])
    match lookupFS fs3 state_file with
    | none => ({ w with fs := fs3 }, some (.fileNotFoundError state_file))
    | some sdata =>
      let fs4 := insertFS fs3 result_file
        (.zip [(basename weights_file, wdata), (basename state_file, sdata)])
      let fs5 := rm_file fs4 weights_file
      let fs6 := rm_file fs5 state_file
      ({ w with fs := fs6 }, none)

/-- ZipFile.extractall: write every member of the archive into the directory
under its member name, overwriting existing files. -/
def extractAll (fs : FS) (dir : String) (entries : List (String × FileData)) : FS :=
  entries.foldl (fun acc e => insertFS acc (pathJoin dir e.1) e.2) fs

/-- StateManager.unpack (state_manager.py lines 23-29).  First records the two
expected output paths in self.__files (this happens before the archive is
opened, hence unconditionally), then opens the archive at the result path
(FileNotFoundError when absent, BadZipFile when not a zip) and extracts all
members into the weights directory. -/
def StateManager.unpack (fsm : FileStructManager) (w : World) : World × Option PyError :=
  let files : SMFiles :=
    ⟨some (pathJoin fsm.weights_dir "weights.pth"),
     some (pathJoin fsm.weights_dir "state.pth")⟩
  let result_file := construct_result_file fsm w.sm.preffix
  let w1 : World := { w with sm := { w.sm with files := files } }
  match lookupFS w.fs result_file with
  | none => (w1, some (.fileNotFoundError result_file))
  | some (.raw _) => (w1, some (.badZipFile result_file))
  | some (.zip entries) =>
    ({ w1 with fs := extractAll w.fs fsm.weights_dir entries }, none)

/-- StateManager.clear_files (state_manager.py lines 31-38).  Subscripts
self.__files at 'weights_file' (KeyError when absent), removes that file when
present on disk, then the same for 'state_file', then resets self.__files to
the empty dict. -/
def StateManager.clear_files (w : World) : World × Option PyError :=
  match w.sm.files.weights_file with
  | none => (w, some (.keyError "weights_file"))
  | some wf =>
    let fs1 := rm_file w.fs wf
    match w.sm.files.state_file with
    | none => ({ w with fs := fs1 }, some (.keyError "state_file"))
    | some sf =>
      let fs2 := rm_file fs1 sf
      ({ fs := fs2, sm := { files := ⟨none, none⟩, preffix := w.sm.preffix } }, none)

/-- StateManager.get_files (state_manager.py lines 63-64). -/
def StateManager.get_files (w : World) : SMFiles := w.sm.files

/-- StateManager.__init__ (state_manager.py lines 8-21).  Starts with an empty
tracked-file dict; when both canonical artifact paths exist as regular files
it packs them under the prefix "prev_start" (an exception from pack propagates
out of the constructor with the prefix still set to "prev_start"); finally the
prefix is set to the caller-supplied value. -/
def StateManager.init (fsm : FileStructManager) (preffix : Option String) (fs : FS) :
    World × Option PyError :=
  let files : SMFiles := ⟨none, none⟩
  if (lookupFS fs fsm.weights_file).isSome && (lookupFS fs fsm.optimizer_state_file).isSome then
    match StateManager.pack fsm ⟨fs, ⟨files, some "prev_start"⟩⟩ with
    | (w1, some e) => (w1, some e)
    | (w1, none) => ({ w1 with sm := { w1.sm with preffix := preffix } }, none)
  else
    (⟨fs, ⟨files, preffix⟩⟩, none)

/-! ## Filesystem lemmas -/

theorem lookupFS_insertFS_self (fs : FS) (k : String) (v : FileData) :
    lookupFS (insertFS fs k v) k = some v := alookup_ainsert_self fs k v

theorem lookupFS_insertFS_ne (fs : FS) (k k' : String) (v : FileData) (h : k' ≠ k) :
    lookupFS (insertFS fs k v) k' = lookupFS fs k' := alookup_ainsert_ne fs k k' v h

theorem lookupFS_eraseFS_self (fs : FS) (k : String) :
    lookupFS (eraseFS fs k) k = none := alookup_aerase_self fs k

theorem lookupFS_eraseFS_ne (fs : FS) (k k' : String) (h : k' ≠ k) :
    lookupFS (eraseFS fs k) k' = lookupFS fs k' := alookup_aerase_ne fs k k' h

theorem lookupFS_rm_file_self (fs : FS) (f : String) :
    lookupFS (rm_file fs f) f = none := by
  unfold rm_file
  cases h : lookupFS fs f with
  | none => simp [h]
  | some d => simp [h, lookupFS_eraseFS_self]

theorem lookupFS_rm_file_ne (fs : FS) (f k : String) (h : k ≠ f) :
    lookupFS (rm_file fs f) k = lookupFS fs k := by
  unfold rm_file
  cases hf : lookupFS fs f with
  | none => simp
  | some d => simp [lookupFS_eraseFS_ne fs f k h]

/-- A path is never equal to itself with the ".old" suffix appended. -/
theorem string_ne_append_old (s : String) : s ≠ s ++ ".old" := by
  intro h
  have := congrArg String.length h
  simp [String.length_append] at this
  exact absurd this (by decide)

theorem lookupFS_rename_file_self (fs : FS) (f : String) :
    lookupFS (rename_file fs f) f = none := by
  have hfo : f ≠ f ++ ".old" := string_ne_append_old f
  unfold rename_file
  cases h : lookupFS (rm_file fs (f ++ ".old")) f with
  | none => simp only [h]
  | some d =>
    simp only [h]
    rw [lookupFS_insertFS_ne _ _ _ _ hfo, lookupFS_eraseFS_self]

theorem lookupFS_rename_file_target (fs : FS) (f : String) :
    lookupFS (rename_file fs f) (f ++ ".old") = lookupFS fs f := by
  have hfo : f ≠ f ++ ".old" := string_ne_append_old f
  have hstep : lookupFS (rm_file fs (f ++ ".old")) f = lookupFS fs f :=
    lookupFS_rm_file_ne fs (f ++ ".old") f hfo
  unfold rename_file
  cases h : lookupFS (rm_file fs (f ++ ".old")) f with
  | none =>
    simp only [h]
    rw [lookupFS_rm_file_self, ← hstep, h]
  | some d =>
    simp only [h]
    rw [lookupFS_insertFS_self, ← hstep, h]

theorem lookupFS_rename_file_other (fs : FS) (f k : String)
    (h1 : k ≠ f) (h2 : k ≠ f ++ ".old") :
    lookupFS (rename_file fs f) k = lookupFS fs k := by
  have hstep : lookupFS (rm_file fs (f ++ ".old")) k = lookupFS fs k :=
    lookupFS_rm_file_ne fs (f ++ ".old") k h2
  unfold rename_file
  cases h : lookupFS (rm_file fs (f ++ ".old")) f with
  | none => simp only [h]; exact hstep
  | some d =>
    simp only [h]
    rw [lookupFS_insertFS_ne _ _ _ _ h2, lookupFS_eraseFS_ne _ _ _ h1, hstep]

/-! ## The effect of a successful pack -/

/-- The canonical-path separation used throughout: the two artifact paths are
distinct from each other and from the archive path and its ".old" backup.
This holds for the canonical layout (weights.pth, state.pth and
state.zip side by side in the weights directory). -/
def packPathsSeparated (fsm : FileStructManager) (preffix : Option String) : Prop :=
  fsm.weights_file ≠ construct_result_file fsm preffix ∧
  fsm.weights_file ≠ construct_result_file fsm preffix ++ ".old" ∧
  fsm.optimizer_state_file ≠ construct_result_file fsm preffix ∧
  fsm.optimizer_state_file ≠ construct_result_file fsm preffix ++ ".old" ∧
  fsm.weights_file ≠ fsm.optimizer_state_file

instance (fsm : FileStructManager) (preffix : Option String) :
    Decidable (packPathsSeparated fsm preffix) := by
  unfold packPathsSeparated
  infer_instance

/-- The filesystem produced by a successful pack, written out explicitly:
backup rotation, the fresh two-member archive, and the removal of the two
source artifacts. -/
def packResultFS (fsm : FileStructManager) (w : World) (dw ds : FileData) : FS :=
  rm_file
    (rm_file
      (insertFS
        (insertFS
          (insertFS (rename_file w.fs (construct_result_file fsm w.sm.preffix))
            (construct_result_file fsm w.sm.preffix) (.zip []))
          (construct_result_file fsm w.sm.preffix)
          (.zip [(basename fsm.weights_file, dw)]))
        (construct_result_file fsm w.sm.preffix)
        (.zip [(basename fsm.weights_file, dw), (basename fsm.optimizer_state_file, ds)]))
      fsm.weights_file)
    fsm.optimizer_state_file

theorem pack_eq (fsm : FileStructManager) (w : World) (dw ds : FileData)
    (hw : lookupFS w.fs fsm.weights_file = some dw)
    (hs : lookupFS w.fs fsm.optimizer_state_file = some ds)
    (hsep : packPathsSeparated fsm w.sm.preffix) :
    StateManager.pack fsm w = ({ w with fs := packResultFS fsm w dw ds }, none) := by
  obtain ⟨h1, h2, h3, h4, h5⟩ := hsep
  have e1 : lookupFS
      (insertFS (rename_file w.fs (construct_result_file fsm w.sm.preffix))
        (construct_result_file fsm w.sm.preffix) (FileData.zip []))
      fsm.weights_file = some dw := by
    rw [lookupFS_insertFS_ne _ _ _ _ h1, lookupFS_rename_file_other _ _ _ h1 h2]
    exact hw
  have e2 : lookupFS
      (insertFS
        (insertFS (rename_file w.fs (construct_result_file fsm w.sm.preffix))
          (construct_result_file fsm w.sm.preffix) (FileData.zip []))
        (construct_result_file fsm w.sm.preffix)
        (FileData.zip [(basename fsm.weights_file, dw)]))
      fsm.optimizer_state_file = some ds := by
    rw [lookupFS_insertFS_ne _ _ _ _ h3, lookupFS_insertFS_ne _ _ _ _ h3,
      lookupFS_rename_file_other _ _ _ h3 h4]
    exact hs
  unfold StateManager.pack packResultFS
  simp only [e1, e2]

theorem packResultFS_lookup_archive (fsm : FileStructManager) (w : World) (dw ds : FileData)
    (hsep : packPathsSeparated fsm w.sm.preffix) :
    lookupFS (packResultFS fsm w dw ds) (construct_result_file fsm w.sm.preffix) =
      some (.zip [(basename fsm.weights_file, dw), (basename fsm.optimizer_state_file, ds)]) := by
  obtain ⟨h1, h2, h3, h4, h5⟩ := hsep
  unfold packResultFS
  rw [lookupFS_rm_file_ne _ _ _ (fun hh => h3 hh.symm),
    lookupFS_rm_file_ne _ _ _ (fun hh => h1 hh.symm), lookupFS_insertFS_self]

theorem packResultFS_lookup_backup (fsm : FileStructManager) (w : World) (dw ds : FileData)
    (hsep : packPathsSeparated fsm w.sm.preffix) :
    lookupFS (packResultFS fsm w dw ds) (construct_result_file fsm w.sm.preffix ++ ".old") =
      lookupFS w.fs (construct_result_file fsm w.sm.preffix) := by
  obtain ⟨h1, h2, h3, h4, h5⟩ := hsep
  have hro := string_ne_append_old (construct_result_file fsm w.sm.preffix)
  unfold packResultFS
  rw [lookupFS_rm_file_ne _ _ _ (fun hh => h4 hh.symm),
    lookupFS_rm_file_ne _ _ _ (fun hh => h2 hh.symm),
    lookupFS_insertFS_ne _ _ _ _ (fun hh => hro hh.symm),
    lookupFS_insertFS_ne _ _ _ _ (fun hh => hro hh.symm),
    lookupFS_insertFS_ne _ _ _ _ (fun hh => hro hh.symm),
    lookupFS_rename_file_target]

theorem packResultFS_lookup_weights (fsm : FileStructManager) (w : World) (dw ds : FileData)
    (hsep : packPathsSeparated fsm w.sm.preffix) :
    lookupFS (packResultFS fsm w dw ds) fsm.weights_file = none := by
  obtain ⟨h1, h2, h3, h4, h5⟩ := hsep
  unfold packResultFS
  rw [lookupFS_rm_file_ne _ _ _ h5, lookupFS_rm_file_self]

theorem packResultFS_lookup_state (fsm : FileStructManager) (w : World) (dw ds : FileData) :
    lookupFS (packResultFS fsm w dw ds) fsm.optimizer_state_file = none := by
  unfold packResultFS
  rw [lookupFS_rm_file_self]

theorem packResultFS_lookup_other (fsm : FileStructManager) (w : World) (dw ds : FileData)
    (k : String)
    (hk1 : k ≠ construct_result_file fsm w.sm.preffix)
    (hk2 : k ≠ construct_result_file fsm w.sm.preffix ++ ".old")
    (hk3 : k ≠ fsm.weights_file) (hk4 : k ≠ fsm.optimizer_state_file) :
    lookupFS (packResultFS fsm w dw ds) k = lookupFS w.fs k := by
  unfold packResultFS
  rw [lookupFS_rm_file_ne _ _ _ hk4, lookupFS_rm_file_ne _ _ _ hk3,
    lookupFS_insertFS_ne _ _ _ _ hk1, lookupFS_insertFS_ne _ _ _ _ hk1,
    lookupFS_insertFS_ne _ _ _ _ hk1, lookupFS_rename_file_other _ _ _ hk1 hk2]

/-- The effect of a successful unpack: the tracked files are recorded and every
archive member is extracted into the weights directory. -/
theorem unpack_eq (fsm : FileStructManager) (w : World) (entries : List (String × FileData))
    (h : lookupFS w.fs (construct_result_file fsm w.sm.preffix) = some (.zip entries)) :
    StateManager.unpack fsm w =
      ({ fs := extractAll w.fs fsm.weights_dir entries,
         sm := { files := ⟨some (pathJoin fsm.weights_dir "weights.pth"),
                          some (pathJoin fsm.weights_dir "state.pth")⟩,
                 preffix := w.sm.preffix } }, none) := by
  unfold StateManager.unpack
  simp only [h]

/-! ## Claim C2 (clear_files on a never-unpacked manager) -/

/-- C2 counterexample: on a StateManager constructed over an empty filesystem
(so unpack was never called), clear_files does not behave as a safe no-op: it
raises a KeyError for the missing tracked-file key. -/
theorem clear_files_untracked_not_noop :
    (StateManager.init ⟨"w", "w/weights.pth", "w/state.pth"⟩ none []).2 = none ∧
    (StateManager.clear_files
        (StateManager.init ⟨"w", "w/weights.pth", "w/state.pth"⟩ none []).1).2 =
      some (PyError.keyError "weights_file") :=
  ⟨rfl, rfl⟩

/-- C2 (amended): calling clear_files on a StateManager whose file tracking is
empty (never unpacked, or reset by a prior clear_files) raises a KeyError for
the key "weights_file"; the filesystem and the internal state are left
unchanged, but the call is not error-free. -/
theorem clear_files_untracked_raises_keyerror (fs : FS) (pre : Option String) :
    StateManager.clear_files ⟨fs, ⟨⟨none, none⟩, pre⟩⟩ =
      (⟨fs, ⟨⟨none, none⟩, pre⟩⟩, some (.keyError "weights_file")) := rfl

/-! ## Claim C9 (unpack records the expected paths unconditionally) -/

/-- C9: unpack records the two expected output paths in the internal tracking
dict before touching the archive, so after any unpack call — archive present,
absent, or not a zip — get_files maps weights_file and state_file to
weights_dir/weights.pth and weights_dir/state.pth. -/
theorem unpack_records_files_unconditionally (fsm : FileStructManager) (w : World) :
    StateManager.get_files (StateManager.unpack fsm w).1 =
      ⟨some (pathJoin fsm.weights_dir "weights.pth"),
       some (pathJoin fsm.weights_dir "state.pth")⟩ := by
  unfold StateManager.unpack StateManager.get_files
  cases h : lookupFS w.fs (construct_result_file fsm w.sm.preffix) with
  | none => simp only [h]
  | some d =>
    cases d with
    | raw b => simp only [h]
    | zip es => simp only [h]

/-! ## Claim C1 (missing source artifact during pack) -/

/-- C1 counterexample: with the weights file present and the optimizer state
file missing, pack raises FileNotFoundError but a usable half-written archive
containing the weights member remains at the target path. -/
theorem pack_missing_state_leaves_partial_archive :
    (StateManager.pack ⟨"w", "w/weights.pth", "w/state.pth"⟩
        ⟨[("w/weights.pth", .raw [7, 7])], ⟨⟨none, none⟩, none⟩⟩).2 =
      some (.fileNotFoundError "w/state.pth") ∧
    lookupFS (StateManager.pack ⟨"w", "w/weights.pth", "w/state.pth"⟩
        ⟨[("w/weights.pth", .raw [7, 7])], ⟨⟨none, none⟩, none⟩⟩).1.fs "w/state.zip" =
      some (.zip [("weights.pth", .raw [7, 7])]) :=
  ⟨rfl, rfl⟩

/-- C1 (amended): when a source artifact file is missing, pack propagates the
underlying FileNotFoundError, but a partial archive does remain at the target
path: the target holds a zip with fewer than the two artifact members (empty
when the weights file is missing, only the weights member when just the
optimizer state file is missing) — and any previous archive has already been
rotated away to the ".old" backup. -/
theorem pack_missing_source_partial_archive (fsm : FileStructManager) (w : World)
    (h1 : fsm.weights_file ≠ construct_result_file fsm w.sm.preffix)
    (h2 : fsm.weights_file ≠ construct_result_file fsm w.sm.preffix ++ ".old")
    (h3 : fsm.optimizer_state_file ≠ construct_result_file fsm w.sm.preffix)
    (h4 : fsm.optimizer_state_file ≠ construct_result_file fsm w.sm.preffix ++ ".old")
    (hmiss : lookupFS w.fs fsm.weights_file = none ∨
      lookupFS w.fs fsm.optimizer_state_file = none) :
    ∃ p, (StateManager.pack fsm w).2 = some (.fileNotFoundError p) ∧
      ∃ es, lookupFS (StateManager.pack fsm w).1.fs
          (construct_result_file fsm w.sm.preffix) = some (.zip es) ∧ es.length ≤ 1 := by
  cases hwl : lookupFS w.fs fsm.weights_file with
  | none =>
    have e0 : lookupFS
        (insertFS (rename_file w.fs (construct_result_file fsm w.sm.preffix))
          (construct_result_file fsm w.sm.preffix) (FileData.zip []))
        fsm.weights_file = none := by
      rw [lookupFS_insertFS_ne _ _ _ _ h1, lookupFS_rename_file_other _ _ _ h1 h2]
      exact hwl
    refine ⟨fsm.weights_file, ?_, [], ?_, by simp⟩
    · unfold StateManager.pack
      simp only [e0]
    · unfold StateManager.pack
      simp only [e0]
      exact lookupFS_insertFS_self _ _ _
  | some dw =>
    have hsl : lookupFS w.fs fsm.optimizer_state_file = none := by
      rcases hmiss with hm | hm
      · rw [hwl] at hm; exact absurd hm (by simp)
      · exact hm
    have e0 : lookupFS
        (insertFS (rename_file w.fs (construct_result_file fsm w.sm.preffix))
          (construct_result_file fsm w.sm.preffix) (FileData.zip []))
        fsm.weights_file = some dw := by
      rw [lookupFS_insertFS_ne _ _ _ _ h1, lookupFS_rename_file_other _ _ _ h1 h2]
      exact hwl
    have e2 : lookupFS
        (insertFS
          (insertFS (rename_file w.fs (construct_result_file fsm w.sm.preffix))
            (construct_result_file fsm w.sm.preffix) (FileData.zip []))
          (construct_result_file fsm w.sm.preffix)
          (FileData.zip [(basename fsm.weights_file, dw)]))
        fsm.optimizer_state_file = none := by
      rw [lookupFS_insertFS_ne _ _ _ _ h3, lookupFS_insertFS_ne _ _ _ _ h3,
        lookupFS_rename_file_other _ _ _ h3 h4]
      exact hsl
    refine ⟨fsm.optimizer_state_file, ?_, [(basename fsm.weights_file, dw)], ?_, by simp⟩
    · unfold StateManager.pack
      simp only [e0, e2]
    · unfold StateManager.pack
      simp only [e0, e2]
      exact lookupFS_insertFS_self _ _ _

/-- C1 witness: the amended statement applied at a concrete filesystem holding
only the weights artifact. -/
theorem pack_missing_source_partial_archive_witness :
    ∃ p, (StateManager.pack ⟨"w", "w/weights.pth", "w/state.pth"⟩
        ⟨[("w/weights.pth", .raw [7, 7])], ⟨⟨none, none⟩, none⟩⟩).2 =
      some (.fileNotFoundError p) ∧
      ∃ es, lookupFS (StateManager.pack ⟨"w", "w/weights.pth", "w/state.pth"⟩
          ⟨[("w/weights.pth", .raw [7, 7])], ⟨⟨none, none⟩, none⟩⟩).1.fs
          (construct_result_file ⟨"w", "w/weights.pth", "w/state.pth"⟩ none) =
        some (.zip es) ∧ es.length ≤ 1 :=
  pack_missing_source_partial_archive ⟨"w", "w/weights.pth", "w/state.pth"⟩
    ⟨[("w/weights.pth", .raw [7, 7])], ⟨⟨none, none⟩, none⟩⟩
    (by decide) (by decide) (by decide) (by decide) (Or.inr rfl)

/-! ## Claim C3 (pack then unpack restores the artifacts) -/

/-- C3: for every pair of existing artifact files at the canonical paths,
pack followed by unpack with the same prefix succeeds and restores both
files bit-identical to the originals at the original canonical paths. -/
theorem pack_unpack_roundtrip (fsm : FileStructManager) (pre : Option String) (st : SMFiles)
    (fs : FS) (bw bs : List Nat)
    (hwf : fsm.weights_file = pathJoin fsm.weights_dir "weights.pth")
    (hsf : fsm.optimizer_state_file = pathJoin fsm.weights_dir "state.pth")
    (hbw : basename fsm.weights_file = "weights.pth")
    (hbs : basename fsm.optimizer_state_file = "state.pth")
    (hw : lookupFS fs fsm.weights_file = some (.raw bw))
    (hs : lookupFS fs fsm.optimizer_state_file = some (.raw bs))
    (hsep : packPathsSeparated fsm pre) :
    ∃ w1 w2 : World,
      StateManager.pack fsm ⟨fs, ⟨st, pre⟩⟩ = (w1, none) ∧
      StateManager.unpack fsm w1 = (w2, none) ∧
      lookupFS w2.fs fsm.weights_file = some (.raw bw) ∧
      lookupFS w2.fs fsm.optimizer_state_file = some (.raw bs) := by
  obtain ⟨h1, h2, h3, h4, h5⟩ := hsep
  have hpack := pack_eq fsm ⟨fs, ⟨st, pre⟩⟩ (.raw bw) (.raw bs) hw hs ⟨h1, h2, h3, h4, h5⟩
  have harch : lookupFS (packResultFS fsm ⟨fs, ⟨st, pre⟩⟩ (.raw bw) (.raw bs))
      (construct_result_file fsm pre) =
      some (.zip [("weights.pth", .raw bw), ("state.pth", .raw bs)]) := by
    have := packResultFS_lookup_archive fsm ⟨fs, ⟨st, pre⟩⟩ (.raw bw) (.raw bs)
      ⟨h1, h2, h3, h4, h5⟩
    rw [hbw, hbs] at this
    exact this
  have hunpack := unpack_eq fsm ⟨packResultFS fsm ⟨fs, ⟨st, pre⟩⟩ (.raw bw) (.raw bs), ⟨st, pre⟩⟩
    [("weights.pth", .raw bw), ("state.pth", .raw bs)] harch
  have hne : pathJoin fsm.weights_dir "weights.pth" ≠ pathJoin fsm.weights_dir "state.pth" := by
    rw [← hwf, ← hsf]; exact h5
  refine ⟨_, _, hpack, hunpack, ?_, ?_⟩
  · show lookupFS (extractAll (packResultFS fsm ⟨fs, ⟨st, pre⟩⟩ (.raw bw) (.raw bs))
        fsm.weights_dir [("weights.pth", .raw bw), ("state.pth", .raw bs)])
      fsm.weights_file = some (.raw bw)
    show lookupFS (insertFS (insertFS (packResultFS fsm ⟨fs, ⟨st, pre⟩⟩ (.raw bw) (.raw bs))
        (pathJoin fsm.weights_dir "weights.pth") (.raw bw))
        (pathJoin fsm.weights_dir "state.pth") (.raw bs)) fsm.weights_file = some (.raw bw)
    rw [hwf, lookupFS_insertFS_ne _ _ _ _ hne, lookupFS_insertFS_self]
  · show lookupFS (insertFS (insertFS (packResultFS fsm ⟨fs, ⟨st, pre⟩⟩ (.raw bw) (.raw bs))
        (pathJoin fsm.weights_dir "weights.pth") (.raw bw))
        (pathJoin fsm.weights_dir "state.pth") (.raw bs))
      fsm.optimizer_state_file = some (.raw bs)
    rw [hsf, lookupFS_insertFS_self]

/-- C3 witness: the round trip at a concrete two-file filesystem. -/
theorem pack_unpack_roundtrip_witness :
    ∃ w1 w2 : World,
      StateManager.pack ⟨"w", "w/weights.pth", "w/state.pth"⟩
        ⟨[("w/weights.pth", .raw [1, 2]), ("w/state.pth", .raw [3])], ⟨⟨none, none⟩, none⟩⟩ =
        (w1, none) ∧
      StateManager.unpack ⟨"w", "w/weights.pth", "w/state.pth"⟩ w1 = (w2, none) ∧
      lookupFS w2.fs "w/weights.pth" = some (.raw [1, 2]) ∧
      lookupFS w2.fs "w/state.pth" = some (.raw [3]) :=
  pack_unpack_roundtrip ⟨"w", "w/weights.pth", "w/state.pth"⟩ none ⟨none, none⟩
    [("w/weights.pth", .raw [1, 2]), ("w/state.pth", .raw [3])] [1, 2] [3]
    rfl rfl rfl rfl rfl rfl (by decide)

/-! ## Claim C5 (backup rotation on pack) -/

/-- C5: packing over an existing archive first deletes any pre-existing ".old"
backup, renames the existing archive to the single ".old" backup (so exactly
one backup survives and its content is the previous archive's), writes both
artifacts into a fresh zip under their base filenames, deletes the original
artifact files, and changes no other path. -/
theorem pack_backup_rotation (fsm : FileStructManager) (w : World) (d0 dw ds : FileData)
    (hprev : lookupFS w.fs (construct_result_file fsm w.sm.preffix) = some d0)
    (hw : lookupFS w.fs fsm.weights_file = some dw)
    (hs : lookupFS w.fs fsm.optimizer_state_file = some ds)
    (hsep : packPathsSeparated fsm w.sm.preffix) :
    ∃ fs' : FS, StateManager.pack fsm w = ({ w with fs := fs' }, none) ∧
      lookupFS fs' (construct_result_file fsm w.sm.preffix ++ ".old") = some d0 ∧
      lookupFS fs' (construct_result_file fsm w.sm.preffix) =
        some (.zip [(basename fsm.weights_file, dw), (basename fsm.optimizer_state_file, ds)]) ∧
      lookupFS fs' fsm.weights_file = none ∧
      lookupFS fs' fsm.optimizer_state_file = none ∧
      ∀ k, k ≠ construct_result_file fsm w.sm.preffix →
        k ≠ construct_result_file fsm w.sm.preffix ++ ".old" →
        k ≠ fsm.weights_file → k ≠ fsm.optimizer_state_file →
        lookupFS fs' k = lookupFS w.fs k :=
  ⟨packResultFS fsm w dw ds, pack_eq fsm w dw ds hw hs hsep,
    (packResultFS_lookup_backup fsm w dw ds hsep).trans hprev,
    packResultFS_lookup_archive fsm w dw ds hsep,
    packResultFS_lookup_weights fsm w dw ds hsep,
    packResultFS_lookup_state fsm w dw ds,
    fun k hk1 hk2 hk3 hk4 => packResultFS_lookup_other fsm w dw ds k hk1 hk2 hk3 hk4⟩

/-- C5 witness: packing over an existing archive and an existing stale backup. -/
theorem pack_backup_rotation_witness :
    ∃ fs' : FS,
      StateManager.pack ⟨"w", "w/weights.pth", "w/state.pth"⟩
        ⟨[("w/state.zip", .raw [9]), ("w/state.zip.old", .raw [8]),
          ("w/weights.pth", .raw [1]), ("w/state.pth", .raw [2])], ⟨⟨none, none⟩, none⟩⟩ =
        ((⟨fs', ⟨⟨none, none⟩, none⟩⟩ : World), none) ∧
      lookupFS fs' ("w/state.zip" ++ ".old") = some (.raw [9]) ∧
      lookupFS fs' "w/state.zip" =
        some (.zip [("weights.pth", .raw [1]), ("state.pth", .raw [2])]) ∧
      lookupFS fs' "w/weights.pth" = none ∧
      lookupFS fs' "w/state.pth" = none ∧
      ∀ k, k ≠ "w/state.zip" → k ≠ "w/state.zip" ++ ".old" →
        k ≠ "w/weights.pth" → k ≠ "w/state.pth" →
        lookupFS fs' k = lookupFS [("w/state.zip", FileData.raw [9]),
          ("w/state.zip.old", FileData.raw [8]), ("w/weights.pth", FileData.raw [1]),
          ("w/state.pth", FileData.raw [2])] k :=
  pack_backup_rotation ⟨"w", "w/weights.pth", "w/state.pth"⟩
    ⟨[("w/state.zip", .raw [9]), ("w/state.zip.old", .raw [8]),
      ("w/weights.pth", .raw [1]), ("w/state.pth", .raw [2])], ⟨⟨none, none⟩, none⟩⟩
    (.raw [9]) (.raw [1]) (.raw [2]) rfl rfl rfl (by decide)

/-! ## Claim C6 (construction auto-packs pre-existing artifacts) -/

/-- C6: constructing a StateManager when both artifact files exist at their
canonical paths immediately packs them under the prefix "prev_start": the
archive prev_start_state.zip appears in the weights directory holding both
artifacts, the raw artifact files are gone, and the prefix ends up as the
caller-supplied value, with empty file tracking. -/
theorem init_auto_packs_existing_artifacts (fsm : FileStructManager) (pre : Option String)
    (fs : FS) (dw ds : FileData)
    (hw : lookupFS fs fsm.weights_file = some dw)
    (hs : lookupFS fs fsm.optimizer_state_file = some ds)
    (hsep : packPathsSeparated fsm (some "prev_start")) :
    ∃ w : World, StateManager.init fsm pre fs = (w, none) ∧
      lookupFS w.fs (pathJoin fsm.weights_dir "prev_start_state.zip") =
        some (.zip [(basename fsm.weights_file, dw), (basename fsm.optimizer_state_file, ds)]) ∧
      lookupFS w.fs fsm.weights_file = none ∧
      lookupFS w.fs fsm.optimizer_state_file = none ∧
      w.sm.preffix = pre ∧ w.sm.files = ⟨none, none⟩ := by
  have hstr : construct_result_file fsm (some "prev_start") =
      pathJoin fsm.weights_dir "prev_start_state.zip" := by
    show pathJoin fsm.weights_dir (("prev_start" ++ "_") ++ "state.zip") = _
    rw [show (("prev_start" ++ "_") ++ "state.zip" : String) = "prev_start_state.zip" from by decide]
  have hpack := pack_eq fsm ⟨fs, ⟨⟨none, none⟩, some "prev_start"⟩⟩ dw ds hw hs hsep
  refine ⟨⟨packResultFS fsm ⟨fs, ⟨⟨none, none⟩, some "prev_start"⟩⟩ dw ds, ⟨⟨none, none⟩, pre⟩⟩,
    ?_, ?_, ?_, ?_, rfl, rfl⟩
  · unfold StateManager.init
    simp only [hw, hs, Option.isSome_some, Bool.and_self, if_true, hpack]
  · rw [← hstr]
    exact packResultFS_lookup_archive fsm ⟨fs, ⟨⟨none, none⟩, some "prev_start"⟩⟩ dw ds hsep
  · exact packResultFS_lookup_weights fsm ⟨fs, ⟨⟨none, none⟩, some "prev_start"⟩⟩ dw ds hsep
  · exact packResultFS_lookup_state fsm ⟨fs, ⟨⟨none, none⟩, some "prev_start"⟩⟩ dw ds

/-- C6 witness: construction over a filesystem already holding both artifacts. -/
theorem init_auto_packs_existing_artifacts_witness :
    ∃ w : World,
      StateManager.init ⟨"w", "w/weights.pth", "w/state.pth"⟩ (some "run1")
        [("w/weights.pth", .raw [4]), ("w/state.pth", .raw [5])] = (w, none) ∧
      lookupFS w.fs (pathJoin "w" "prev_start_state.zip") =
        some (.zip [("weights.pth", .raw [4]), ("state.pth", .raw [5])]) ∧
      lookupFS w.fs "w/weights.pth" = none ∧
      lookupFS w.fs "w/state.pth" = none ∧
      w.sm.preffix = some "run1" ∧ w.sm.files = ⟨none, none⟩ :=
  init_auto_packs_existing_artifacts ⟨"w", "w/weights.pth", "w/state.pth"⟩ (some "run1")
    [("w/weights.pth", .raw [4]), ("w/state.pth", .raw [5])] (.raw [4]) (.raw [5])
    rfl rfl (by decide)

/-! ## Augmentations (src/tonet/data_conveyor/augmentations.py) -/

/-- Augmentation.__call__ (augmentations.py lines 14-23): draw
random.randint(1, 100) and apply process when the draw is at most the
configured percentage, otherwise return the item unchanged.  The draw is
passed explicitly; its support [1, 100] is a hypothesis of the theorems. -/
def Augmentation.call {α : Type} (percentage : Int) (process : α → α) (draw : Int)
    (data : α) : α :=
  if draw ≤ percentage then process data else data

/-- C4: the invocation contract — a draw in [1, 100] applies process exactly
when the draw is at most the percentage; hence percentage 100 always applies
process and percentage 0 never does. -/
theorem augmentation_call_contract {α : Type} (percentage : Int) (process : α → α)
    (data : α) (draw : Int) (h1 : 1 ≤ draw) (h2 : draw ≤ 100) :
    (draw ≤ percentage → Augmentation.call percentage process draw data = process data) ∧
    (percentage < draw → Augmentation.call percentage process draw data = data) ∧
    (percentage = 100 → Augmentation.call percentage process draw data = process data) ∧
    (percentage = 0 → Augmentation.call percentage process draw data = data) := by
  unfold Augmentation.call
  exact ⟨fun h => if_pos h, fun h => if_neg (by omega),
    fun h => if_pos (by omega), fun h => if_neg (by omega)⟩

/-- C4 witness: the contract at percentage 100 and draw 50 on a Nat item. -/
theorem augmentation_call_contract_witness :
    ((50 : Int) ≤ 100 → Augmentation.call 100 Nat.succ 50 3 = Nat.succ 3) ∧
    ((100 : Int) < 50 → Augmentation.call 100 Nat.succ 50 3 = 3) ∧
    ((100 : Int) = 100 → Augmentation.call 100 Nat.succ 50 3 = Nat.succ 3) ∧
    ((100 : Int) = 0 → Augmentation.call 100 Nat.succ 50 3 = 3) :=
  augmentation_call_contract 100 Nat.succ 3 50 (by decide) (by decide)

/-! ## RandomCrop.process (claim C8) -/

/-- random.randint(a, b): raises ValueError when the range is empty (a > b),
otherwise returns the uniform draw, which is passed in explicitly. -/
def pyRandint (a b draw : Int) : Except PyError Int :=
  if a ≤ b then .ok draw else .error .valueError

/-- The crop window data[y1 : y2, x1 : x2, :] produced by a crop transform. -/
structure CropWindow where
  y1 : Int
  y2 : Int
  x1 : Int
  x2 : Int
deriving DecidableEq, Repr

/-- RandomCrop.process (augmentations.py lines 191-198): for an h × w × c
image, dx is randint(0, w - width) when w > width and 0 otherwise, dy is
randint(0, h - height) when h > height and 0 otherwise, and the returned
window is data[dy : dy + height, dx : dx + width, :]. -/
def RandomCrop.process (width height h w : Int) (drawX drawY : Int) :
    Except PyError CropWindow :=
  match (if w > width then pyRandint 0 (w - width) drawX else .ok 0),
      (if h > height then pyRandint 0 (h - height) drawY else .ok 0) with
  | .ok dx, .ok dy => .ok ⟨dy, dy + height, dx, dx + width⟩
  | .error e, _ => .error e
  | .ok _, .error e => .error e

/-- C8: when the requested size meets or exceeds the image dimension on an
axis, RandomCrop.process never raises and the window offset on that axis is
0; when it is strictly smaller, the offset is the uniform draw over exactly
the valid offsets [0, dimension - size]. -/
theorem randomcrop_no_raise_and_offsets (width height h w drawX drawY : Int)
    (hx : width < w → 0 ≤ drawX ∧ drawX ≤ w - width)
    (hy : height < h → 0 ≤ drawY ∧ drawY ≤ h - height) :
    ∃ win : CropWindow, RandomCrop.process width height h w drawX drawY = .ok win ∧
      (w ≤ width → win.x1 = 0) ∧ (h ≤ height → win.y1 = 0) ∧
      (width < w → win.x1 = drawX ∧ 0 ≤ win.x1 ∧ win.x1 ≤ w - width) ∧
      (height < h → win.y1 = drawY ∧ 0 ≤ win.y1 ∧ win.y1 ≤ h - height) ∧
      win.y2 = win.y1 + height ∧ win.x2 = win.x1 + width := by
  by_cases hxw : width < w
  · by_cases hyh : height < h
    · refine ⟨⟨drawY, drawY + height, drawX, drawX + width⟩, ?_, ?_, ?_,
        fun _ => ⟨rfl, (hx hxw).1, (hx hxw).2⟩,
        fun _ => ⟨rfl, (hy hyh).1, (hy hyh).2⟩, rfl, rfl⟩
      · unfold RandomCrop.process pyRandint
        rw [if_pos hxw, if_pos (by omega : (0 : Int) ≤ w - width),
          if_pos hyh, if_pos (by omega : (0 : Int) ≤ h - height)]
      · intro hc; exact absurd hxw (by omega)
      · intro hc; exact absurd hyh (by omega)
    · refine ⟨⟨0, 0 + height, drawX, drawX + width⟩, ?_, ?_,
        fun _ => rfl,
        fun _ => ⟨rfl, (hx hxw).1, (hx hxw).2⟩,
        fun hc => absurd hc hyh, rfl, rfl⟩
      · unfold RandomCrop.process pyRandint
        rw [if_pos hxw, if_pos (by omega : (0 : Int) ≤ w - width), if_neg hyh]
      · intro hc; exact absurd hxw (by omega)
  · by_cases hyh : height < h
    · refine ⟨⟨drawY, drawY + height, 0, 0 + width⟩, ?_,
        fun _ => rfl, ?_,
        fun hc => absurd hc hxw,
        fun _ => ⟨rfl, (hy hyh).1, (hy hyh).2⟩, rfl, rfl⟩
      · unfold RandomCrop.process pyRandint
        rw [if_neg hxw, if_pos hyh, if_pos (by omega : (0 : Int) ≤ h - height)]
      · intro hc; exact absurd hyh (by omega)
    · refine ⟨⟨0, 0 + height, 0, 0 + width⟩, ?_,
        fun _ => rfl, fun _ => rfl,
        fun hc => absurd hc hxw, fun hc => absurd hc hyh, rfl, rfl⟩
      unfold RandomCrop.process pyRandint
      rw [if_neg hxw, if_neg hyh]

/-- C8 witness: a 10 × 50 image with an oversized requested width (100 ≥ 50)
and an undersized requested height (5 < 10, draw 3). -/
theorem randomcrop_no_raise_and_offsets_witness :
    ∃ win : CropWindow, RandomCrop.process 100 5 10 50 30 3 = .ok win ∧
      ((50 : Int) ≤ 100 → win.x1 = 0) ∧ ((10 : Int) ≤ 5 → win.y1 = 0) ∧
      ((100 : Int) < 50 → win.x1 = 30 ∧ 0 ≤ win.x1 ∧ win.x1 ≤ 50 - 100) ∧
      ((5 : Int) < 10 → win.y1 = 3 ∧ 0 ≤ win.y1 ∧ win.y1 ≤ 10 - 5) ∧
      win.y2 = win.y1 + 5 ∧ win.x2 = win.x1 + 100 :=
  randomcrop_no_raise_and_offsets 100 5 10 50 30 3 (by decide) (by decide)

/-! ## SNPNoise.process (claim C10) -/

/-- The support of np.random.randint(low, high): the upper bound is
exclusive. -/
def npRandintSupport (low high d : Int) : Prop := low ≤ d ∧ d < high

instance (low high d : Int) : Decidable (npRandintSupport low high d) := by
  unfold npRandintSupport
  infer_instance

/-- numpy fancy indexing out[coords] with one index array per axis pairs the
arrays elementwise into coordinate triples. -/
def coordZip (rs cs chs : List Int) : List (Int × Int × Int) :=
  rs.zip (cs.zip chs)

/-- Assign the value v to every listed coordinate of the image. -/
def setPixels (img : Int × Int × Int → Int) (coords : List (Int × Int × Int)) (v : Int) :
    Int × Int × Int → Int :=
  fun p => if p ∈ coords then v else img p

/-- SNPNoise.process (augmentations.py lines 108-121): copy the image, set the
salt coordinates to 255, then set the pepper coordinates to 0.  The per-axis
coordinate arrays, drawn by np.random.randint(0, i - 1, n) for each axis
length i, are passed in explicitly. -/
def SNPNoise.process (img : Int × Int × Int → Int)
    (saltR saltC saltCh pepR pepC pepCh : List Int) : Int × Int × Int → Int :=
  let out1 := setPixels img (coordZip saltR saltC saltCh) 255
  setPixels out1 (coordZip pepR pepC pepCh) 0

/-- C10: because every coordinate is drawn from np.random.randint(0, n - 1),
whose upper bound is exclusive, no drawn coordinate ever equals n - 1, so a
pixel in the last row, last column or last channel is never set to 255 or 0:
the transform leaves it at its input value. -/
theorem snpnoise_never_touches_last_index (r c ch : Int) (img : Int × Int × Int → Int)
    (saltR saltC saltCh pepR pepC pepCh : List Int)
    (hsr : ∀ d ∈ saltR, npRandintSupport 0 (r - 1) d)
    (hsc : ∀ d ∈ saltC, npRandintSupport 0 (c - 1) d)
    (hsch : ∀ d ∈ saltCh, npRandintSupport 0 (ch - 1) d)
    (hpr : ∀ d ∈ pepR, npRandintSupport 0 (r - 1) d)
    (hpc : ∀ d ∈ pepC, npRandintSupport 0 (c - 1) d)
    (hpch : ∀ d ∈ pepCh, npRandintSupport 0 (ch - 1) d)
    (pr pc pch : Int)
    (hp : pr = r - 1 ∨ pc = c - 1 ∨ pch = ch - 1) :
    SNPNoise.process img saltR saltC saltCh pepR pepC pepCh (pr, pc, pch) = img (pr, pc, pch) := by
  have hnot : ∀ (rs cs chs : List Int),
      (∀ d ∈ rs, npRandintSupport 0 (r - 1) d) →
      (∀ d ∈ cs, npRandintSupport 0 (c - 1) d) →
      (∀ d ∈ chs, npRandintSupport 0 (ch - 1) d) →
      (pr, pc, pch) ∉ coordZip rs cs chs := by
    intro rs cs chs hr hc hch hmem
    unfold coordZip at hmem
    have h12 := List.of_mem_zip hmem
    have h34 := List.of_mem_zip h12.2
    rcases hp with hl | hl | hl
    · have := hr pr h12.1
      unfold npRandintSupport at this
      omega
    · have := hc pc h34.1
      unfold npRandintSupport at this
      omega
    · have := hch pch h34.2
      unfold npRandintSupport at this
      omega
  unfold SNPNoise.process setPixels
  rw [if_neg (hnot pepR pepC pepCh hpr hpc hpch),
    if_neg (hnot saltR saltC saltCh hsr hsc hsch)]

/-- C10 witness: a 3 × 3 × 3 image with concrete in-range draws and the
last-row pixel (2, 0, 1). -/
theorem snpnoise_never_touches_last_index_witness :
    SNPNoise.process (fun _ => (7 : Int)) [0, 1] [1, 0] [0, 0] [1] [1] [1] (2, 0, 1) = 7 :=
  snpnoise_never_touches_last_index 3 3 3 (fun _ => (7 : Int)) [0, 1] [1, 0] [0, 0] [1] [1] [1]
    (by decide) (by decide) (by decide) (by decide) (by decide) (by decide)
    2 0 1 (Or.inl rfl)

/-! ## Configuration model and get_config (claim C7) -/

/-- A configuration parameter value: Python is dynamically typed, so the
constructors store whatever value the configuration holds; integers,
floating ratios and two-element size/interval lists cover every parameter
used by augmentations.py. -/
inductive PVal where
  | int : Int → PVal
  | rat : Rat → PVal
  | intList : List Int → PVal
deriving DecidableEq, Repr

/-- The per-transform parameter mapping, e.g. the value of config["blur"]. -/
def Fragment : Type := List (String × PVal)

/-- The top-level configuration mapping transform key to parameter mapping. -/
def Config : Type := List (String × Fragment)

/-- Augmentation.__init__ composed with _get_config_path (augmentations.py
lines 10-12 and 33-34): read config[aug_name]["percentage"]; a missing key is
a KeyError, modelled by none. -/
def augBasePercentage (config : Config) (aug_name : String) : Option PVal :=
  (alookup config aug_name).bind (fun frag => alookup frag "percentage")

/-- The transform-specific parameter payload of each Augmentation subclass,
exactly the fields each subclass stores in __init__. -/
inductive AugKind where
  | hflip
  | vflip
  | gauss_noise (mean var interval : PVal)
  | snp_noise (s_vs_p amount : PVal)
  | blur (ksize : PVal)
  | resize (size : PVal)
  | ccrop (size : PVal)
  | rcrop (size : PVal)
  | rrotate (interval : PVal)
  | rbrightness (interval : PVal)
  | rcontrast (interval : PVal)
  | normalize
  | to_pytorch
deriving DecidableEq, Repr

/-- A constructed Augmentation instance: its registry name (self.__aug_name),
its stored percentage (self._percentage) and its variant payload. -/
structure Aug where
  aug_name : String
  percentage : PVal
  kind : AugKind
deriving DecidableEq, Repr

/-- HorizontalFlip.__init__ (augmentations.py lines 59-61). -/
def HorizontalFlip.init (config : Config) : Option Aug :=
  (augBasePercentage config "hflip").bind (fun p => some ⟨"hflip", p, .hflip⟩)

/-- VerticalFlip.__init__ (augmentations.py lines 70-72). -/
def VerticalFlip.init (config : Config) : Option Aug :=
  (augBasePercentage config "vflip").bind (fun p => some ⟨"vflip", p, .vflip⟩)

/-- GaussNoise.__init__ (augmentations.py lines 81-87). -/
def GaussNoise.init (config : Config) : Option Aug :=
  (augBasePercentage config "gauss_noise").bind (fun p =>
    (alookup config "gauss_noise").bind (fun frag =>
      (alookup frag "mean").bind (fun mean =>
        (alookup frag "var").bind (fun variance =>
          (alookup frag "interval").bind (fun interval =>
            some ⟨"gauss_noise", p, .gauss_noise mean variance interval⟩)))))

/-- SNPNoise.__init__ (augmentations.py lines 101-106). -/
def SNPNoise.init (config : Config) : Option Aug :=
  (augBasePercentage config "snp_noise").bind (fun p =>
    (alookup config "snp_noise").bind (fun frag =>
      (alookup frag "s_vs_p").bind (fun s_vs_p =>
        (alookup frag "amount").bind (fun amount =>
          some ⟨"snp_noise", p, .snp_noise s_vs_p amount⟩))))

/-- Blur.__init__ (augmentations.py lines 127-131). -/
def Blur.init (config : Config) : Option Aug :=
  (augBasePercentage config "blur").bind (fun p =>
    (alookup config "blur").bind (fun frag =>
      (alookup frag "ksize").bind (fun ksize =>
        some ⟨"blur", p, .blur ksize⟩)))

/-- Resize.__init__ (augmentations.py lines 152-158): reads the percentage
through the base constructor and the size, then overwrites
self._percentage with 100. -/
def Resize.init (config : Config) : Option Aug :=
  (augBasePercentage config "resize").bind (fun _p =>
    (alookup config "resize").bind (fun frag =>
      (alookup frag "size").bind (fun size =>
        some ⟨"resize", .int 100, .resize size⟩)))

/-- CentralCrop.__init__ (augmentations.py lines 167-171). -/
def CentralCrop.init (config : Config) : Option Aug :=
  (augBasePercentage config "ccrop").bind (fun p =>
    (alookup config "ccrop").bind (fun frag =>
      (alookup frag "size").bind (fun size =>
        some ⟨"ccrop", p, .ccrop size⟩)))

/-- RandomCrop.__init__ (augmentations.py lines 185-189). -/
def RandomCrop.init (config : Config) : Option Aug :=
  (augBasePercentage config "rcrop").bind (fun p =>
    (alookup config "rcrop").bind (fun frag =>
      (alookup frag "size").bind (fun size =>
        some ⟨"rcrop", p, .rcrop size⟩)))

/-- RandomRotate.__init__ (augmentations.py lines 204-207). -/
def RandomRotate.init (config : Config) : Option Aug :=
  (augBasePercentage config "rrotate").bind (fun p =>
    (alookup config "rrotate").bind (fun frag =>
      (alookup frag "interval").bind (fun interval =>
        some ⟨"rrotate", p, .rrotate interval⟩)))

/-- RandomBrightness.__init__ (augmentations.py lines 225-229). -/
def RandomBrightness.init (config : Config) : Option Aug :=
  (augBasePercentage config "rbrightness").bind (fun p =>
    (alookup config "rbrightness").bind (fun frag =>
      (alookup frag "interval").bind (fun interval =>
        some ⟨"rbrightness", p, .rbrightness interval⟩)))

/-- RandomContrast.__init__ (augmentations.py lines 239-242). -/
def RandomContrast.init (config : Config) : Option Aug :=
  (augBasePercentage config "rcontrast").bind (fun p =>
    (alookup config "rcontrast").bind (fun frag =>
      (alookup frag "interval").bind (fun interval =>
        some ⟨"rcontrast", p, .rcontrast interval⟩)))

/-- Normalize.__init__ (augmentations.py lines 252-256): reads the
percentage through the base constructor, then overwrites it with 100. -/
def Normalize.init (config : Config) : Option Aug :=
  (augBasePercentage config "normalize").bind (fun _p =>
    some ⟨"normalize", .int 100, .normalize⟩)

/-- ToPyTorch.__init__ (augmentations.py lines 265-268): reads the
percentage through the base constructor, then overwrites it with 100. -/
def ToPyTorch.init (config : Config) : Option Aug :=
  (augBasePercentage config "to_pytorch").bind (fun _p =>
    some ⟨"to_pytorch", .int 100, .to_pytorch⟩)

/-- The _get_config override of each subclass: the transform-specific keys. -/
def AugKind.get_config_internal : AugKind → Fragment
  | .hflip => []
  | .vflip => []
  | .gauss_noise mean variance interval =>
    [("mean", mean), ("var", variance), ("interval", interval)]
  | .snp_noise s_vs_p amount => [("s_vs_p", s_vs_p), ("amount", amount)]
  | .blur ksize => [("ksize", ksize)]
  | .resize size => [("size", size)]
  | .ccrop size => [("size", size)]
  | .rcrop size => [("size", size)]
  | .rrotate interval => [("interval", interval)]
  | .rbrightness interval => [("interval", interval)]
  | .rcontrast interval => [("interval", interval)]
  | .normalize => []
  | .to_pytorch => []

/-- Augmentation.get_config (augmentations.py lines 49-56): the dict
first holds "percentage" (get_percetage) and is then updated with
_get_config, none of whose keys is "percentage", and wrapped under the
transform name. -/
def Aug.get_config (a : Aug) : Config :=
  [(a.aug_name, ("percentage", a.percentage) :: a.kind.get_config_internal)]

/-- augmentations_dict (augmentations.py lines 280-292). -/
def augmentations_dict : List (String × (Config → Option Aug)) :=
  [("hflip", HorizontalFlip.init),
   ("vflip", VerticalFlip.init),
   ("gauss_noise", GaussNoise.init),
   ("snp_noise", SNPNoise.init),
   ("blur", Blur.init),
   ("resize", Resize.init),
   ("ccrop", CentralCrop.init),
   ("rcrop", RandomCrop.init),
   ("rrotate", RandomRotate.init),
   ("to_pytorch", ToPyTorch.init),
   ("normalize", Normalize.init),
   ("rbrightness", RandomBrightness.init),
   ("rcontrast", RandomContrast.init)]

/-- Constructing the transform for a configuration key: look the key up in
augmentations_dict and call the constructor on the configuration. -/
def buildAug (name : String) (config : Config) : Option Aug :=
  (alookup augmentations_dict name).bind (fun ctor => ctor config)

/-- The variants whose constructors force the stored percentage to 100
regardless of the configured value. -/
def fixedPercentageVariant (name : String) : Bool :=
  name = "resize" || name = "normalize" || name = "to_pytorch"

/-- Inverting a lookup in a cons cell: either the head key matched or the
lookup continued in the tail. -/
theorem alookup_cons_eq_some {α : Type} {key : String} {val : α} {rest : List (String × α)}
    {k : String} {v : α} (h : alookup ((key, val) :: rest) k = some v) :
    (k = key ∧ v = val) ∨ (¬k = key ∧ alookup rest k = some v) := by
  unfold alookup at h
  by_cases hk : k = key
  · rw [if_pos hk] at h
    exact Or.inl ⟨hk, (Option.some.inj h).symm⟩
  · rw [if_neg hk] at h
    exact Or.inr ⟨hk, h⟩

theorem hflip_round_trip (config : Config) (a : Aug)
    (h : HorizontalFlip.init config = some a) :
    a.aug_name = "hflip" ∧ ∃ frag, a.get_config = [("hflip", frag)] ∧
      ∀ k v, alookup frag k = some v →
        (alookup config "hflip").bind (fun f => alookup f k) = some v := by
  simp only [HorizontalFlip.init, augBasePercentage, Option.bind_eq_some,
    Option.some.injEq] at h
  obtain ⟨p, ⟨frag0, hc, hp⟩, rfl⟩ := h
  refine ⟨rfl, [("percentage", p)], rfl, ?_⟩
  intro k v hkv
  rcases alookup_cons_eq_some hkv with ⟨rfl, rfl⟩ | ⟨hne, hrest⟩
  · rw [hc]
    exact hp
  · simp [alookup] at hrest

theorem vflip_round_trip (config : Config) (a : Aug)
    (h : VerticalFlip.init config = some a) :
    a.aug_name = "vflip" ∧ ∃ frag, a.get_config = [("vflip", frag)] ∧
      ∀ k v, alookup frag k = some v →
        (alookup config "vflip").bind (fun f => alookup f k) = some v := by
  simp only [VerticalFlip.init, augBasePercentage, Option.bind_eq_some,
    Option.some.injEq] at h
  obtain ⟨p, ⟨frag0, hc, hp⟩, rfl⟩ := h
  refine ⟨rfl, [("percentage", p)], rfl, ?_⟩
  intro k v hkv
  rcases alookup_cons_eq_some hkv with ⟨rfl, rfl⟩ | ⟨hne, hrest⟩
  · rw [hc]
    exact hp
  · simp [alookup] at hrest

theorem gauss_noise_round_trip (config : Config) (a : Aug)
    (h : GaussNoise.init config = some a) :
    a.aug_name = "gauss_noise" ∧ ∃ frag, a.get_config = [("gauss_noise", frag)] ∧
      ∀ k v, alookup frag k = some v →
        (alookup config "gauss_noise").bind (fun f => alookup f k) = some v := by
  simp only [GaussNoise.init, augBasePercentage, Option.bind_eq_some,
    Option.some.injEq] at h
  obtain ⟨p, ⟨frag0, hc0, hp⟩, frag1, hc1, mean, hm, variance, hv, interval, hi, rfl⟩ := h
  have hf : frag0 = frag1 := Option.some.inj (hc0.symm.trans hc1)
  subst hf
  refine ⟨rfl, [("percentage", p), ("mean", mean), ("var", variance), ("interval", interval)],
    rfl, ?_⟩
  intro k v hkv
  rcases alookup_cons_eq_some hkv with ⟨rfl, rfl⟩ | ⟨hne1, hkv⟩
  · rw [hc0]; exact hp
  · rcases alookup_cons_eq_some hkv with ⟨rfl, rfl⟩ | ⟨hne2, hkv⟩
    · rw [hc0]; exact hm
    · rcases alookup_cons_eq_some hkv with ⟨rfl, rfl⟩ | ⟨hne3, hkv⟩
      · rw [hc0]; exact hv
      · rcases alookup_cons_eq_some hkv with ⟨rfl, rfl⟩ | ⟨hne4, hkv⟩
        · rw [hc0]; exact hi
        · simp [alookup] at hkv

theorem snp_noise_round_trip (config : Config) (a : Aug)
    (h : SNPNoise.init config = some a) :
    a.aug_name = "snp_noise" ∧ ∃ frag, a.get_config = [("snp_noise", frag)] ∧
      ∀ k v, alookup frag k = some v →
        (alookup config "snp_noise").bind (fun f => alookup f k) = some v := by
  simp only [SNPNoise.init, augBasePercentage, Option.bind_eq_some,
    Option.some.injEq] at h
  obtain ⟨p, ⟨frag0, hc0, hp⟩, frag1, hc1, s_vs_p, hs, amount, ha, rfl⟩ := h
  have hf : frag0 = frag1 := Option.some.inj (hc0.symm.trans hc1)
  subst hf
  refine ⟨rfl, [("percentage", p), ("s_vs_p", s_vs_p), ("amount", amount)], rfl, ?_⟩
  intro k v hkv
  rcases alookup_cons_eq_some hkv with ⟨rfl, rfl⟩ | ⟨hne1, hkv⟩
  · rw [hc0]; exact hp
  · rcases alookup_cons_eq_some hkv with ⟨rfl, rfl⟩ | ⟨hne2, hkv⟩
    · rw [hc0]; exact hs
    · rcases alookup_cons_eq_some hkv with ⟨rfl, rfl⟩ | ⟨hne3, hkv⟩
      · rw [hc0]; exact ha
      · simp [alookup] at hkv

theorem blur_round_trip (config : Config) (a : Aug) (h : Blur.init config = some a) :
    a.aug_name = "blur" ∧ ∃ frag, a.get_config = [("blur", frag)] ∧
      ∀ k v, alookup frag k = some v →
        (alookup config "blur").bind (fun f => alookup f k) = some v := by
  simp only [Blur.init, augBasePercentage, Option.bind_eq_some, Option.some.injEq] at h
  obtain ⟨p, ⟨frag0, hc0, hp⟩, frag1, hc1, ksize, hks, rfl⟩ := h
  have hf : frag0 = frag1 := Option.some.inj (hc0.symm.trans hc1)
  subst hf
  refine ⟨rfl, [("percentage", p), ("ksize", ksize)], rfl, ?_⟩
  intro k v hkv
  rcases alookup_cons_eq_some hkv with ⟨rfl, rfl⟩ | ⟨hne1, hkv⟩
  · rw [hc0]; exact hp
  · rcases alookup_cons_eq_some hkv with ⟨rfl, rfl⟩ | ⟨hne2, hkv⟩
    · rw [hc0]; exact hks
    · simp [alookup] at hkv

theorem ccrop_round_trip (config : Config) (a : Aug)
    (h : CentralCrop.init config = some a) :
    a.aug_name = "ccrop" ∧ ∃ frag, a.get_config = [("ccrop", frag)] ∧
      ∀ k v, alookup frag k = some v →
        (alookup config "ccrop").bind (fun f => alookup f k) = some v := by
  simp only [CentralCrop.init, augBasePercentage, Option.bind_eq_some,
    Option.some.injEq] at h
  obtain ⟨p, ⟨frag0, hc0, hp⟩, frag1, hc1, size, hsz, rfl⟩ := h
  have hf : frag0 = frag1 := Option.some.inj (hc0.symm.trans hc1)
  subst hf
  refine ⟨rfl, [("percentage", p), ("size", size)], rfl, ?_⟩
  intro k v hkv
  rcases alookup_cons_eq_some hkv with ⟨rfl, rfl⟩ | ⟨hne1, hkv⟩
  · rw [hc0]; exact hp
  · rcases alookup_cons_eq_some hkv with ⟨rfl, rfl⟩ | ⟨hne2, hkv⟩
    · rw [hc0]; exact hsz
    · simp [alookup] at hkv

theorem rcrop_round_trip (config : Config) (a : Aug)
    (h : RandomCrop.init config = some a) :
    a.aug_name = "rcrop" ∧ ∃ frag, a.get_config = [("rcrop", frag)] ∧
      ∀ k v, alookup frag k = some v →
        (alookup config "rcrop").bind (fun f => alookup f k) = some v := by
  simp only [RandomCrop.init, augBasePercentage, Option.bind_eq_some,
    Option.some.injEq] at h
  obtain ⟨p, ⟨frag0, hc0, hp⟩, frag1, hc1, size, hsz, rfl⟩ := h
  have hf : frag0 = frag1 := Option.some.inj (hc0.symm.trans hc1)
  subst hf
  refine ⟨rfl, [("percentage", p), ("size", size)], rfl, ?_⟩
  intro k v hkv
  rcases alookup_cons_eq_some hkv with ⟨rfl, rfl⟩ | ⟨hne1, hkv⟩
  · rw [hc0]; exact hp
  · rcases alookup_cons_eq_some hkv with ⟨rfl, rfl⟩ | ⟨hne2, hkv⟩
    · rw [hc0]; exact hsz
    · simp [alookup] at hkv

theorem rrotate_round_trip (config : Config) (a : Aug)
    (h : RandomRotate.init config = some a) :
    a.aug_name = "rrotate" ∧ ∃ frag, a.get_config = [("rrotate", frag)] ∧
      ∀ k v, alookup frag k = some v →
        (alookup config "rrotate").bind (fun f => alookup f k) = some v := by
  simp only [RandomRotate.init, augBasePercentage, Option.bind_eq_some,
    Option.some.injEq] at h
  obtain ⟨p, ⟨frag0, hc0, hp⟩, frag1, hc1, interval, hi, rfl⟩ := h
  have hf : frag0 = frag1 := Option.some.inj (hc0.symm.trans hc1)
  subst hf
  refine ⟨rfl, [("percentage", p), ("interval", interval)], rfl, ?_⟩
  intro k v hkv
  rcases alookup_cons_eq_some hkv with ⟨rfl, rfl⟩ | ⟨hne1, hkv⟩
  · rw [hc0]; exact hp
  · rcases alookup_cons_eq_some hkv with ⟨rfl, rfl⟩ | ⟨hne2, hkv⟩
    · rw [hc0]; exact hi
    · simp [alookup] at hkv

theorem rbrightness_round_trip (config : Config) (a : Aug)
    (h : RandomBrightness.init config = some a) :
    a.aug_name = "rbrightness" ∧ ∃ frag, a.get_config = [("rbrightness", frag)] ∧
      ∀ k v, alookup frag k = some v →
        (alookup config "rbrightness").bind (fun f => alookup f k) = some v := by
  simp only [RandomBrightness.init, augBasePercentage, Option.bind_eq_some,
    Option.some.injEq] at h
  obtain ⟨p, ⟨frag0, hc0, hp⟩, frag1, hc1, interval, hi, rfl⟩ := h
  have hf : frag0 = frag1 := Option.some.inj (hc0.symm.trans hc1)
  subst hf
  refine ⟨rfl, [("percentage", p), ("interval", interval)], rfl, ?_⟩
  intro k v hkv
  rcases alookup_cons_eq_some hkv with ⟨rfl, rfl⟩ | ⟨hne1, hkv⟩
  · rw [hc0]; exact hp
  · rcases alookup_cons_eq_some hkv with ⟨rfl, rfl⟩ | ⟨hne2, hkv⟩
    · rw [hc0]; exact hi
    · simp [alookup] at hkv

theorem rcontrast_round_trip (config : Config) (a : Aug)
    (h : RandomContrast.init config = some a) :
    a.aug_name = "rcontrast" ∧ ∃ frag, a.get_config = [("rcontrast", frag)] ∧
      ∀ k v, alookup frag k = some v →
        (alookup config "rcontrast").bind (fun f => alookup f k) = some v := by
  simp only [RandomContrast.init, augBasePercentage, Option.bind_eq_some,
    Option.some.injEq] at h
  obtain ⟨p, ⟨frag0, hc0, hp⟩, frag1, hc1, interval, hi, rfl⟩ := h
  have hf : frag0 = frag1 := Option.some.inj (hc0.symm.trans hc1)
  subst hf
  refine ⟨rfl, [("percentage", p), ("interval", interval)], rfl, ?_⟩
  intro k v hkv
  rcases alookup_cons_eq_some hkv with ⟨rfl, rfl⟩ | ⟨hne1, hkv⟩
  · rw [hc0]; exact hp
  · rcases alookup_cons_eq_some hkv with ⟨rfl, rfl⟩ | ⟨hne2, hkv⟩
    · rw [hc0]; exact hi
    · simp [alookup] at hkv

theorem resize_round_trip (config : Config) (a : Aug) (h : Resize.init config = some a) :
    a.aug_name = "resize" ∧ ∃ frag, a.get_config = [("resize", frag)] ∧
      ∀ k v, alookup frag k = some v →
        (k = "percentage" → v = PVal.int 100) ∧
        (k ≠ "percentage" →
          (alookup config "resize").bind (fun f => alookup f k) = some v) := by
  simp only [Resize.init, augBasePercentage, Option.bind_eq_some, Option.some.injEq] at h
  obtain ⟨p, ⟨frag0, hc0, hp⟩, frag1, hc1, size, hsz, rfl⟩ := h
  refine ⟨rfl, [("percentage", .int 100), ("size", size)], rfl, ?_⟩
  intro k v hkv
  rcases alookup_cons_eq_some hkv with ⟨rfl, rfl⟩ | ⟨hne1, hkv⟩
  · exact ⟨fun _ => rfl, fun hk => absurd rfl hk⟩
  · rcases alookup_cons_eq_some hkv with ⟨rfl, rfl⟩ | ⟨hne2, hkv⟩
    · refine ⟨fun hk => absurd hk (by decide), fun _ => ?_⟩
      rw [hc1]
      exact hsz
    · simp [alookup] at hkv

theorem normalize_round_trip (config : Config) (a : Aug)
    (h : Normalize.init config = some a) :
    a.aug_name = "normalize" ∧ ∃ frag, a.get_config = [("normalize", frag)] ∧
      ∀ k v, alookup frag k = some v →
        (k = "percentage" → v = PVal.int 100) ∧
        (k ≠ "percentage" →
          (alookup config "normalize").bind (fun f => alookup f k) = some v) := by
  simp only [Normalize.init, augBasePercentage, Option.bind_eq_some,
    Option.some.injEq] at h
  obtain ⟨p, ⟨frag0, hc, hp⟩, rfl⟩ := h
  refine ⟨rfl, [("percentage", .int 100)], rfl, ?_⟩
  intro k v hkv
  rcases alookup_cons_eq_some hkv with ⟨rfl, rfl⟩ | ⟨hne, hrest⟩
  · exact ⟨fun _ => rfl, fun hk => absurd rfl hk⟩
  · simp [alookup] at hrest

theorem to_pytorch_round_trip (config : Config) (a : Aug)
    (h : ToPyTorch.init config = some a) :
    a.aug_name = "to_pytorch" ∧ ∃ frag, a.get_config = [("to_pytorch", frag)] ∧
      ∀ k v, alookup frag k = some v →
        (k = "percentage" → v = PVal.int 100) ∧
        (k ≠ "percentage" →
          (alookup config "to_pytorch").bind (fun f => alookup f k) = some v) := by
  simp only [ToPyTorch.init, augBasePercentage, Option.bind_eq_some,
    Option.some.injEq] at h
  obtain ⟨p, ⟨frag0, hc, hp⟩, rfl⟩ := h
  refine ⟨rfl, [("percentage", .int 100)], rfl, ?_⟩
  intro k v hkv
  rcases alookup_cons_eq_some hkv with ⟨rfl, rfl⟩ | ⟨hne, hrest⟩
  · exact ⟨fun _ => rfl, fun hk => absurd rfl hk⟩
  · simp [alookup] at hrest

/-- C7 counterexample: a Resize constructed from a fragment configured with
percentage 55 serializes percentage 100, so get_config is not the inverse of
construction for the Resize variant. -/
theorem resize_get_config_not_inverse :
    buildAug "resize"
        [("resize", [("percentage", PVal.int 55), ("size", PVal.intList [64, 64])])] =
      some ⟨"resize", PVal.int 100, .resize (PVal.intList [64, 64])⟩ ∧
    Aug.get_config ⟨"resize", PVal.int 100, .resize (PVal.intList [64, 64])⟩ =
      [("resize", [("percentage", PVal.int 100), ("size", PVal.intList [64, 64])])] ∧
    alookup [("percentage", PVal.int 100), ("size", PVal.intList [64, 64])] "percentage" ≠
      alookup [("percentage", PVal.int 55), ("size", PVal.intList [64, 64])] "percentage" :=
  ⟨rfl, rfl, by decide⟩

/-- C7 (amended): for every registry variant, get_config returns the
transform's name and a fragment whose keys carry exactly the values of the
configuration fragment it was constructed from — except that for the
fixed-behaviour variants (resize, normalize, to_pytorch) the serialized
percentage is 100 regardless of the configured percentage. -/
theorem get_config_round_trip (name : String) (config : Config) (a : Aug)
    (h : buildAug name config = some a) :
    a.aug_name = name ∧
    ∃ frag, a.get_config = [(name, frag)] ∧
      ∀ k v, alookup frag k = some v →
        ((fixedPercentageVariant name = true ∧ k = "percentage") → v = PVal.int 100) ∧
        (¬(fixedPercentageVariant name = true ∧ k = "percentage") →
          (alookup config name).bind (fun f => alookup f k) = some v) := by
  by_cases h1 : name = "hflip"
  · subst h1
    obtain ⟨hname, frag, hgc, hrt⟩ := hflip_round_trip config a h
    exact ⟨hname, frag, hgc, fun k v hkv =>
      ⟨fun hc => absurd hc.1 (by decide), fun _ => hrt k v hkv⟩⟩
  by_cases h2 : name = "vflip"
  · subst h2
    obtain ⟨hname, frag, hgc, hrt⟩ := vflip_round_trip config a h
    exact ⟨hname, frag, hgc, fun k v hkv =>
      ⟨fun hc => absurd hc.1 (by decide), fun _ => hrt k v hkv⟩⟩
  by_cases h3 : name = "gauss_noise"
  · subst h3
    obtain ⟨hname, frag, hgc, hrt⟩ := gauss_noise_round_trip config a h
    exact ⟨hname, frag, hgc, fun k v hkv =>
      ⟨fun hc => absurd hc.1 (by decide), fun _ => hrt k v hkv⟩⟩
  by_cases h4 : name = "snp_noise"
  · subst h4
    obtain ⟨hname, frag, hgc, hrt⟩ := snp_noise_round_trip config a h
    exact ⟨hname, frag, hgc, fun k v hkv =>
      ⟨fun hc => absurd hc.1 (by decide), fun _ => hrt k v hkv⟩⟩
  by_cases h5 : name = "blur"
  · subst h5
    obtain ⟨hname, frag, hgc, hrt⟩ := blur_round_trip config a h
    exact ⟨hname, frag, hgc, fun k v hkv =>
      ⟨fun hc => absurd hc.1 (by decide), fun _ => hrt k v hkv⟩⟩
  by_cases h6 : name = "resize"
  · subst h6
    obtain ⟨hname, frag, hgc, hrt⟩ := resize_round_trip config a h
    exact ⟨hname, frag, hgc, fun k v hkv =>
      ⟨fun hc => (hrt k v hkv).1 hc.2,
       fun hn => (hrt k v hkv).2 (fun hk => hn ⟨by decide, hk⟩)⟩⟩
  by_cases h7 : name = "ccrop"
  · subst h7
    obtain ⟨hname, frag, hgc, hrt⟩ := ccrop_round_trip config a h
    exact ⟨hname, frag, hgc, fun k v hkv =>
      ⟨fun hc => absurd hc.1 (by decide), fun _ => hrt k v hkv⟩⟩
  by_cases h8 : name = "rcrop"
  · subst h8
    obtain ⟨hname, frag, hgc, hrt⟩ := rcrop_round_trip config a h
    exact ⟨hname, frag, hgc, fun k v hkv =>
      ⟨fun hc => absurd hc.1 (by decide), fun _ => hrt k v hkv⟩⟩
  by_cases h9 : name = "rrotate"
  · subst h9
    obtain ⟨hname, frag, hgc, hrt⟩ := rrotate_round_trip config a h
    exact ⟨hname, frag, hgc, fun k v hkv =>
      ⟨fun hc => absurd hc.1 (by decide), fun _ => hrt k v hkv⟩⟩
  by_cases h10 : name = "to_pytorch"
  · subst h10
    obtain ⟨hname, frag, hgc, hrt⟩ := to_pytorch_round_trip config a h
    exact ⟨hname, frag, hgc, fun k v hkv =>
      ⟨fun hc => (hrt k v hkv).1 hc.2,
       fun hn => (hrt k v hkv).2 (fun hk => hn ⟨by decide, hk⟩)⟩⟩
  by_cases h11 : name = "normalize"
  · subst h11
    obtain ⟨hname, frag, hgc, hrt⟩ := normalize_round_trip config a h
    exact ⟨hname, frag, hgc, fun k v hkv =>
      ⟨fun hc => (hrt k v hkv).1 hc.2,
       fun hn => (hrt k v hkv).2 (fun hk => hn ⟨by decide, hk⟩)⟩⟩
  by_cases h12 : name = "rbrightness"
  · subst h12
    obtain ⟨hname, frag, hgc, hrt⟩ := rbrightness_round_trip config a h
    exact ⟨hname, frag, hgc, fun k v hkv =>
      ⟨fun hc => absurd hc.1 (by decide), fun _ => hrt k v hkv⟩⟩
  by_cases h13 : name = "rcontrast"
  · subst h13
    obtain ⟨hname, frag, hgc, hrt⟩ := rcontrast_round_trip config a h
    exact ⟨hname, frag, hgc, fun k v hkv =>
      ⟨fun hc => absurd hc.1 (by decide), fun _ => hrt k v hkv⟩⟩
  exfalso
  have hreg : alookup augmentations_dict name = none := by
    simp [augmentations_dict, alookup, h1, h2, h3, h4, h5, h6, h7, h8, h9, h10, h11, h12, h13]
  unfold buildAug at h
  rw [hreg] at h
  simp at h

/-- C7 witness: the amended round trip at a concrete Blur configuration. -/
theorem get_config_round_trip_witness :
    (⟨"blur", PVal.int 30, .blur (PVal.intList [3, 3])⟩ : Aug).aug_name = "blur" ∧
    ∃ frag, Aug.get_config ⟨"blur", PVal.int 30, .blur (PVal.intList [3, 3])⟩ =
        [("blur", frag)] ∧
      ∀ k v, alookup frag k = some v →
        ((fixedPercentageVariant "blur" = true ∧ k = "percentage") → v = PVal.int 100) ∧
        (¬(fixedPercentageVariant "blur" = true ∧ k = "percentage") →
          (alookup [("blur", [("percentage", PVal.int 30), ("ksize", PVal.intList [3, 3])])]
              "blur").bind (fun f => alookup f k) = some v) :=
  get_config_round_trip "blur"
    [("blur", [("percentage", PVal.int 30), ("ksize", PVal.intList [3, 3])])]
    ⟨"blur", PVal.int 30, .blur (PVal.intList [3, 3])⟩ rfl
